import Mathlib

/-!
Shallow embedding of the trip-lead manager allocation/approval core
(`src/server/vite.ts` with its persistence adapter `src/server/lib/airtable.ts`).

Statuses are free-text strings; classification is by case-insensitive
substring matching, mirrored here by `hasSubSeq` over lowered character
lists.  The proposal cache is a function from trip ids to optional
proposals; the approval committer, waitlist promoter, re-add and drop
handlers are pure functions over explicit state, returning the updates
the handlers would send to the store.
-/

namespace TripCore

/-- Normalized signup record as produced by `normalizeSignup` in
`src/server/lib/airtable.ts`: record id, participant name, immutable
driver-eligibility flag and the free-text status string. -/
structure Signup where
  id : String
  name : String
  isDriver : Bool
  status : String
deriving DecidableEq

/-- A single persistence update: rewrite the Status field of the signup
with the given record id (the only kind of write the core issues). -/
structure Update where
  id : String
  status : String
deriving DecidableEq

/-! ### Case-insensitive substring classification (signups route handler) -/

/-- `beginsWith pat s` is true when `pat` is an initial segment of `s`. -/
def beginsWith : List Char → List Char → Bool
  | [], _ => true
  | _ :: _, [] => false
  | p :: ps, c :: cs => p == c && beginsWith ps cs

/-- `hasSubSeq s pat` is true when `pat` occurs contiguously inside `s`:
the embedding of JavaScript `String.prototype.includes`. -/
def hasSubSeq : List Char → List Char → Bool
  | _, [] => true
  | [], _ :: _ => false
  | c :: cs, pat => beginsWith pat (c :: cs) || hasSubSeq cs pat

/-- Lower-case a character list (embedding of `toLowerCase` on the ASCII
strings this core manipulates). -/
def lowerList (s : List Char) : List Char := s.map Char.toLower

/-- The lowered character list of a status string, as every filter in the
route handlers computes it (`s.fields.Status?.toLowerCase() || ""`). -/
def statusLower (s : String) : List Char := lowerList s.data

/-- Roster filter of the signups route handler: status contains
"selected" or "on trip", and does not contain "dropped". -/
def isOnRosterStatus (s : String) : Bool :=
  let st := statusLower s
  (hasSubSeq st "selected".data || hasSubSeq st "on trip".data)
    && !(hasSubSeq st "dropped".data)

/-- Waitlist filter: status contains "waitlist". -/
def isWaitlistStatus (s : String) : Bool :=
  hasSubSeq (statusLower s) "waitlist".data

/-- Dropped filter: status contains "dropped". -/
def isDroppedStatus (s : String) : Bool :=
  hasSubSeq (statusLower s) "dropped".data

/-- Current roster view derived from raw signups, as every handler
recomputes it. -/
def rosterOf (signups : List Signup) : List Signup :=
  signups.filter (fun s => isOnRosterStatus s.status)

/-- Current waitlist view derived from raw signups. -/
def waitlistOf (signups : List Signup) : List Signup :=
  signups.filter (fun s => isWaitlistStatus s.status)

/-- Drivers currently on the roster (`roster.filter(s => s.fields["Is Driver"]).length`). -/
def currentDriversOf (signups : List Signup) : Nat :=
  ((rosterOf signups).filter (fun s => s.isDriver)).length

/-- Non-drivers currently on the roster, computed as the handlers do:
`roster.length - currentDrivers`. -/
def currentNonDriversOf (signups : List Signup) : Nat :=
  (rosterOf signups).length - currentDriversOf signups

/-! ### Randomized allocator (randomize route handler, post-shuffle) -/

/-- Result of one allocator run.  The shuffle is nondeterministic in the
source (`sort(() => Math.random() - 0.5)`), so the embedding takes the
already-shuffled driver-eligible and non-driver pools as inputs. -/
structure AllocResult where
  selectedAsDrivers : List Signup
  selectedAsNonDrivers : List Signup
  proposedRoster : List Signup
  proposedWaitlist : List Signup
deriving DecidableEq

/-- The slot-filling and backfill algorithm of the randomize handler:
take `driverSlotsNeeded` from the shuffled driver pool and
`nonDriverSlotsNeeded` from the shuffled non-driver pool; if non-driver
slots remain unfilled and driver overflow remains, move the needed count
of overflow drivers into the selected-non-driver set; everyone not
selected becomes the proposed waitlist. -/
def allocate (driverSlotsNeeded nonDriverSlotsNeeded : Nat)
    (shuffledDrivers shuffledNonDrivers : List Signup) : AllocResult :=
  let selectedAsDrivers := shuffledDrivers.take driverSlotsNeeded
  let remainingDriverPool := shuffledDrivers.drop driverSlotsNeeded
  let selectedAsNonDrivers0 := shuffledNonDrivers.take nonDriverSlotsNeeded
  let remainingNonDriverPool := shuffledNonDrivers.drop nonDriverSlotsNeeded
  let nonDriverSlotsFilled := selectedAsNonDrivers0.length
  let neededBackfill := nonDriverSlotsNeeded - nonDriverSlotsFilled
  let doBackfill : Bool :=
    decide (nonDriverSlotsFilled < nonDriverSlotsNeeded)
      && decide (0 < remainingDriverPool.length)
  let selectedAsNonDrivers :=
    if doBackfill then selectedAsNonDrivers0 ++ remainingDriverPool.take neededBackfill
    else selectedAsNonDrivers0
  let finalRemainingDriverPool :=
    if doBackfill then remainingDriverPool.drop neededBackfill
    else remainingDriverPool
  ⟨selectedAsDrivers, selectedAsNonDrivers,
    selectedAsDrivers ++ selectedAsNonDrivers,
    finalRemainingDriverPool ++ remainingNonDriverPool⟩

/-! ### Proposal cache -/

/-- A cached proposal (`ProposedRoster` in the source): the exact id
lists computed by the allocator plus a creation timestamp in
milliseconds. -/
structure ProposedRoster where
  rosterIds : List String
  waitlistIds : List String
  timestamp : Nat
deriving DecidableEq

/-- The in-memory proposal map, keyed by trip id. -/
abbrev Cache := String → Option ProposedRoster

/-- Proposal time-to-live: 10 minutes in milliseconds. -/
def PROPOSAL_TTL : Nat := 10 * 60 * 1000

/-- The periodic sweep (`cleanupExpiredProposals`): removes every entry
whose age at `now` exceeds the TTL. -/
def cleanupExpiredProposals (now : Nat) (cache : Cache) : Cache :=
  fun tripId =>
    match cache tripId with
    | some p => if now - p.timestamp > PROPOSAL_TTL then none else some p
    | none => none

/-! ### Approval committer (approve-randomization route handler) -/

inductive ApproveError where
  | NoPendingProposal
  | ProposalMismatch
deriving DecidableEq

/-- The id-list validation used for both roster and waitlist ids: the
supplied list has the same length as the stored list and every supplied
id is a member of the stored set. -/
def rosterMatches (supplied stored : List String) : Bool :=
  supplied.length == stored.length && supplied.all (fun id => stored.contains id)

/-- Status assigned to a roster member on approval, resolved from the
signup's driver flag. -/
def selectedStatusFor (s : Signup) : String :=
  if s.isDriver then "Selected (driver)" else "Selected (nondriver)"

/-- Roster updates emitted by the approval: each roster id that resolves
in the freshly fetched signup list yields one Status write; unresolved
ids are skipped. -/
def buildRosterUpdates (rosterIds : List String) (signups : List Signup) : List Update :=
  rosterIds.filterMap (fun id =>
    match signups.find? (fun s => s.id == id) with
    | some s => some ⟨id, selectedStatusFor s⟩
    | none => none)

/-- Waitlist ids that resolve to a driver signup, in input order. -/
def waitlistDriverIds (waitlistIds : List String) (signups : List Signup) : List String :=
  waitlistIds.filter (fun id =>
    match signups.find? (fun s => s.id == id) with
    | some s => s.isDriver
    | none => false)

/-- Waitlist ids that resolve to a non-driver signup, in input order. -/
def waitlistNonDriverIds (waitlistIds : List String) (signups : List Signup) : List String :=
  waitlistIds.filter (fun id =>
    match signups.find? (fun s => s.id == id) with
    | some s => !s.isDriver
    | none => false)

/-- Assign 1-based positions within a waitlist sub-queue
(`forEach((id, index) => ...)` with status `pre + (index + 1)`). -/
def numberFrom (pre : String) (k : Nat) : List String → List Update
  | [] => []
  | id :: ids => ⟨id, pre ++ toString (k + 1)⟩ :: numberFrom pre (k + 1) ids

/-- Number a waitlist sub-queue starting at position 1. -/
def numberWaitlist (pre : String) (ids : List String) : List Update :=
  numberFrom pre 0 ids

/-- The complete update set a validated approval emits: roster updates,
then numbered driver-waitlist updates, then numbered non-driver-waitlist
updates. -/
def approveUpdates (rosterIds waitlistIds : List String) (signups : List Signup) : List Update :=
  buildRosterUpdates rosterIds signups
    ++ numberWaitlist "Waitlist (driver) - " (waitlistDriverIds waitlistIds signups)
    ++ numberWaitlist "Waitlist (nondriver) - " (waitlistNonDriverIds waitlistIds signups)

/-- The approve-randomization handler: look up the cached proposal (no
age check — only presence), validate the supplied id lists, and on match
delete the entry and emit the update set.  Returns the result together
with the cache state after the call. -/
def approve (cache : Cache) (tripId : String) (rosterIds waitlistIds : List String)
    (signups : List Signup) : Except ApproveError (List Update) × Cache :=
  match cache tripId with
  | none => (Except.error ApproveError.NoPendingProposal, cache)
  | some stored =>
    if rosterMatches rosterIds stored.rosterIds
        && rosterMatches waitlistIds stored.waitlistIds then
      (Except.ok (approveUpdates rosterIds waitlistIds signups),
        fun k => if k = tripId then none else cache k)
    else
      (Except.error ApproveError.ProposalMismatch, cache)

/-- Observable events of an approval run, in program order. -/
inductive Event where
  | deleteProposal (tripId : String)
  | write (u : Update)
deriving DecidableEq

def Event.isWrite : Event → Bool
  | .write _ => true
  | .deleteProposal _ => false

/-- The event trace of a validated approval: the handler clears the
stored proposal first (line "Clear the stored proposal BEFORE updates")
and only then issues the status writes. -/
def approveTrace (cache : Cache) (tripId : String) (rosterIds waitlistIds : List String)
    (signups : List Signup) : List Event :=
  match cache tripId with
  | none => []
  | some stored =>
    if rosterMatches rosterIds stored.rosterIds
        && rosterMatches waitlistIds stored.waitlistIds then
      Event.deleteProposal tripId
        :: (approveUpdates rosterIds waitlistIds signups).map Event.write
    else []

/-- Effect of one event on the proposal cache (writes touch only the
external store, not the cache). -/
def stepCache (c : Cache) : Event → Cache
  | .deleteProposal t => fun k => if k = t then none else c k
  | .write _ => c

/-- The cache state observed just before each event of a trace. -/
def cacheStates (c : Cache) : List Event → List Cache
  | [] => []
  | e :: es => c :: cacheStates (stepCache c e) es

/-! ### Incremental waitlist promoter and re-add -/

inductive PromoteError where
  | RosterFull
  | WaitlistEmpty
  | NoDriversOnWaitlist
  | NoNonDriversOnWaitlist
  | NoSuitableParticipant
deriving DecidableEq

/-- The addFromWaitlist handler: recompute the roster and waitlist views
from fresh signups, check total capacity, then pick a participant by
spot availability, preferring a driver when both spot types are open.
Capacities are computed in `Int` as in JavaScript number arithmetic. -/
def addFromWaitlist (maxParticipants driverSlots : Nat)
    (signups : List Signup) : Except PromoteError Update :=
  let roster := rosterOf signups
  let currentDrivers := currentDriversOf signups
  let currentNonDrivers := currentNonDriversOf signups
  let currentTotal := roster.length
  if currentTotal ≥ maxParticipants then Except.error PromoteError.RosterFull
  else
    let driverSpotsAvailable : Int := (driverSlots : Int) - currentDrivers
    let nonDriverSpotsAvailable : Int :=
      (maxParticipants : Int) - driverSlots - currentNonDrivers
    let waitlist := waitlistOf signups
    if waitlist.length = 0 then Except.error PromoteError.WaitlistEmpty
    else
      let waitlistDrivers := waitlist.filter (fun s => s.isDriver)
      let waitlistNonDrivers := waitlist.filter (fun s => !s.isDriver)
      if driverSpotsAvailable > 0 ∧ nonDriverSpotsAvailable > 0 then
        match waitlistDrivers with
        | w :: _ => Except.ok ⟨w.id, selectedStatusFor w⟩
        | [] =>
          match waitlistNonDrivers with
          | w :: _ => Except.ok ⟨w.id, selectedStatusFor w⟩
          | [] => Except.error PromoteError.WaitlistEmpty
      else if driverSpotsAvailable > 0 then
        match waitlistDrivers with
        | [] => Except.error PromoteError.NoDriversOnWaitlist
        | w :: _ => Except.ok ⟨w.id, selectedStatusFor w⟩
      else if nonDriverSpotsAvailable > 0 then
        match waitlistNonDrivers with
        | [] => Except.error PromoteError.NoNonDriversOnWaitlist
        | w :: _ => Except.ok ⟨w.id, selectedStatusFor w⟩
      else Except.error PromoteError.NoSuitableParticipant

inductive ReAddError where
  | ParticipantNotFound
  | RosterFull
  | NoDriverSpots
  | NoNonDriverSpots
deriving DecidableEq

/-- The reAddParticipant handler: find the signup by id (404 when
absent), check total capacity and the per-flag sub-capacity, then
rewrite the status to the Selected form for the participant's flag.  The
prior status is never inspected. -/
def reAddParticipant (maxParticipants driverSlots : Nat)
    (signups : List Signup) (participantId : String) : Except ReAddError Update :=
  match signups.find? (fun s => s.id == participantId) with
  | none => Except.error ReAddError.ParticipantNotFound
  | some p =>
    if (rosterOf signups).length ≥ maxParticipants then Except.error ReAddError.RosterFull
    else if p.isDriver then
      if (driverSlots : Int) - currentDriversOf signups ≤ 0 then
        Except.error ReAddError.NoDriverSpots
      else Except.ok ⟨participantId, "Selected (driver)"⟩
    else
      if (maxParticipants : Int) - driverSlots - currentNonDriversOf signups ≤ 0 then
        Except.error ReAddError.NoNonDriverSpots
      else Except.ok ⟨participantId, "Selected (nondriver)"⟩

/-! ### Drop handler and the persistence adapter -/

/-- `updateSignup` maps the two legacy generic statuses back to their
Airtable spellings and passes every other status string through
unchanged. -/
def mapStatusToAirtable (s : String) : String :=
  if s = "Roster" then "ON TRIP"
  else if s = "Waitlist" then "WAITLIST"
  else s

/-- The external signup store, abstracted as a partial map from record
ids to signups. -/
abbrev Store := String → Option Signup

/-- Effect of `updateSignup(id, { Status })` on the store: rewrite only
the Status field of the addressed record; every other field and every
other record is untouched, and no record is created or deleted. -/
def updateSignupStore (store : Store) (signupId : String) (newStatus : String) : Store :=
  fun k =>
    if k = signupId then
      match store k with
      | some s => some ⟨s.id, s.name, s.isDriver, mapStatusToAirtable newStatus⟩
      | none => none
    else store k

/-- The dropParticipant handler: unconditionally emit one Status write
setting `"Dropped- {today as MM/DD/YYYY}"`; no capacity check, no
deletion. -/
def dropParticipant (participantId todayDate : String) : Update :=
  ⟨participantId, "Dropped- " ++ todayDate⟩

/-- The update list the drop handler sends to the store. -/
def dropUpdates (participantId todayDate : String) : List Update :=
  [dropParticipant participantId todayDate]

/-- Apply one emitted update to the store. -/
def applyUpdate (store : Store) (u : Update) : Store :=
  updateSignupStore store u.id u.status

/-! ### Lemmas about the substring classifier -/

/-- The ten decimal digit characters, the alphabet of waitlist position
numerals. -/
def digitChars : List Char := ['0', '1', '2', '3', '4', '5', '6', '7', '8', '9']

/-- The alphabet of `MM/DD/YYYY` date stamps: digits and the slash. -/
def dateChars : List Char := digitChars ++ ['/']

theorem beginsWith_mem {pat s : List Char} {c : Char}
    (h : beginsWith pat s = true) (hc : c ∈ pat) : c ∈ s := by
  induction pat generalizing s with
  | nil => simp at hc
  | cons p ps ih =>
    cases s with
    | nil => simp [beginsWith] at h
    | cons x xs =>
      simp only [beginsWith, Bool.and_eq_true, beq_iff_eq] at h
      rcases List.mem_cons.1 hc with rfl | hc'
      · exact h.1 ▸ List.mem_cons_self x xs
      · exact List.mem_cons_of_mem x (ih h.2 hc')

theorem hasSubSeq_mem {s pat : List Char} {c : Char}
    (h : hasSubSeq s pat = true) (hc : c ∈ pat) : c ∈ s := by
  induction s with
  | nil =>
    cases pat with
    | nil => simp at hc
    | cons q qs => simp [hasSubSeq] at h
  | cons x xs ih =>
    cases pat with
    | nil => simp at hc
    | cons q qs =>
      simp only [hasSubSeq, Bool.or_eq_true] at h
      rcases h with h | h
      · exact beginsWith_mem h hc
      · exact List.mem_cons_of_mem x (ih h)

theorem hasSubSeq_eq_false_of_not_mem {s pat : List Char} {c : Char}
    (hc : c ∈ pat) (hs : c ∉ s) : hasSubSeq s pat = false := by
  cases h : hasSubSeq s pat
  · rfl
  · exact absurd (hasSubSeq_mem h hc) hs

theorem beginsWith_self_append (pat rest : List Char) :
    beginsWith pat (pat ++ rest) = true := by
  induction pat with
  | nil => rfl
  | cons p ps ih => simp [beginsWith, ih]

theorem hasSubSeq_of_beginsWith {pat s : List Char}
    (h : beginsWith pat s = true) : hasSubSeq s pat = true := by
  cases pat with
  | nil => cases s <;> rfl
  | cons q qs =>
    cases s with
    | nil => simp [beginsWith] at h
    | cons x xs => simp [hasSubSeq, h]

theorem hasSubSeq_self_append (pat rest : List Char) :
    hasSubSeq (pat ++ rest) pat = true :=
  hasSubSeq_of_beginsWith (beginsWith_self_append pat rest)

theorem toLower_fix_dateChar {c : Char} (h : c ∈ dateChars) : c.toLower = c := by
  fin_cases h <;> rfl

theorem lowerList_fix {l : List Char} (h : ∀ c ∈ l, c ∈ dateChars) :
    lowerList l = l := by
  induction l with
  | nil => rfl
  | cons x xs ih =>
    simp only [lowerList, List.map_cons]
    rw [toLower_fix_dateChar (h x (List.mem_cons_self x xs))]
    have := ih fun c hc => h c (List.mem_cons_of_mem x hc)
    simpa [lowerList] using this

/-! ### Status-string families the core writes -/

/-- A driver-waitlist status as emitted on approval: the fixed text
`"Waitlist (driver) - "` followed by the position numeral. -/
def waitlistDriverStatusStr (num : List Char) : String :=
  ⟨"Waitlist (driver) - ".data ++ num⟩

/-- A non-driver-waitlist status as emitted on approval. -/
def waitlistNonDriverStatusStr (num : List Char) : String :=
  ⟨"Waitlist (nondriver) - ".data ++ num⟩

/-- A dropped status as emitted by the drop handler: `"Dropped- "`
followed by a `MM/DD/YYYY` date stamp. -/
def droppedStatusStr (date : List Char) : String :=
  ⟨"Dropped- ".data ++ date⟩

theorem lowerList_append (a b : List Char) :
    lowerList (a ++ b) = lowerList a ++ lowerList b :=
  List.map_append Char.toLower a b

theorem not_mem_base_num {base num : List Char} {c : Char}
    (hb : c ∉ base) (hn : ∀ x ∈ num, x ∈ dateChars) (hc : c ∉ dateChars) :
    c ∉ base ++ num := by
  intro h
  rcases List.mem_append.1 h with h | h
  · exact hb h
  · exact hc (hn _ h)

end TripCore

namespace TripCore

/-- C5: every status string this core itself writes — "Selected (driver)",
"Selected (nondriver)", "Waitlist (driver) - N", "Waitlist (nondriver) - N"
(N any decimal numeral) and "Dropped- MM/DD/YYYY" — is classified by the
substring rules of the signups route handler into exactly one of roster,
waitlist, dropped: the three filter predicates are pairwise disjoint and
jointly exhaustive over the strings the core produces. -/
theorem core_status_classification_exact (num date : List Char)
    (hnum : ∀ c ∈ num, c ∈ digitChars) (hdate : ∀ c ∈ date, c ∈ dateChars) :
    (isOnRosterStatus "Selected (driver)" = true
      ∧ isWaitlistStatus "Selected (driver)" = false
      ∧ isDroppedStatus "Selected (driver)" = false)
    ∧ (isOnRosterStatus "Selected (nondriver)" = true
      ∧ isWaitlistStatus "Selected (nondriver)" = false
      ∧ isDroppedStatus "Selected (nondriver)" = false)
    ∧ (isOnRosterStatus (waitlistDriverStatusStr num) = false
      ∧ isWaitlistStatus (waitlistDriverStatusStr num) = true
      ∧ isDroppedStatus (waitlistDriverStatusStr num) = false)
    ∧ (isOnRosterStatus (waitlistNonDriverStatusStr num) = false
      ∧ isWaitlistStatus (waitlistNonDriverStatusStr num) = true
      ∧ isDroppedStatus (waitlistNonDriverStatusStr num) = false)
    ∧ (isOnRosterStatus (droppedStatusStr date) = false
      ∧ isWaitlistStatus (droppedStatusStr date) = false
      ∧ isDroppedStatus (droppedStatusStr date) = true) := by
  have hnum' : ∀ c ∈ num, c ∈ dateChars :=
    fun c hc => List.mem_append_left _ (hnum c hc)
  have hlnum : lowerList num = num := lowerList_fix hnum'
  have hldate : lowerList date = date := lowerList_fix hdate
  have e1 : statusLower (waitlistDriverStatusStr num) = "waitlist (driver) - ".data ++ num := by
    show lowerList ("Waitlist (driver) - ".data ++ num) = _
    rw [lowerList_append, hlnum,
      show lowerList "Waitlist (driver) - ".data = "waitlist (driver) - ".data from by decide]
  have e2 : statusLower (waitlistNonDriverStatusStr num)
      = "waitlist (nondriver) - ".data ++ num := by
    show lowerList ("Waitlist (nondriver) - ".data ++ num) = _
    rw [lowerList_append, hlnum,
      show lowerList "Waitlist (nondriver) - ".data = "waitlist (nondriver) - ".data from by decide]
  have e3 : statusLower (droppedStatusStr date) = "dropped- ".data ++ date := by
    show lowerList ("Dropped- ".data ++ date) = _
    rw [lowerList_append, hldate,
      show lowerList "Dropped- ".data = "dropped- ".data from by decide]
  refine ⟨by decide, by decide, ?_, ?_, ?_⟩
  · refine ⟨?_, ?_, ?_⟩
    · show ((hasSubSeq (statusLower _) "selected".data
          || hasSubSeq (statusLower _) "on trip".data)
          && !(hasSubSeq (statusLower _) "dropped".data)) = false
      rw [e1]
      rw [hasSubSeq_eq_false_of_not_mem (c := 'c') (by decide)
          (not_mem_base_num (by decide) hnum' (by decide)),
        hasSubSeq_eq_false_of_not_mem (c := 'p') (by decide)
          (not_mem_base_num (by decide) hnum' (by decide))]
      rfl
    · show hasSubSeq (statusLower _) "waitlist".data = true
      rw [e1, show ("waitlist (driver) - ".data)
          = "waitlist".data ++ " (driver) - ".data from by decide,
        List.append_assoc]
      exact hasSubSeq_self_append _ _
    · show hasSubSeq (statusLower _) "dropped".data = false
      rw [e1]
      exact hasSubSeq_eq_false_of_not_mem (c := 'p') (by decide)
        (not_mem_base_num (by decide) hnum' (by decide))
  · refine ⟨?_, ?_, ?_⟩
    · show ((hasSubSeq (statusLower _) "selected".data
          || hasSubSeq (statusLower _) "on trip".data)
          && !(hasSubSeq (statusLower _) "dropped".data)) = false
      rw [e2]
      rw [hasSubSeq_eq_false_of_not_mem (c := 'c') (by decide)
          (not_mem_base_num (by decide) hnum' (by decide)),
        hasSubSeq_eq_false_of_not_mem (c := 'p') (by decide)
          (not_mem_base_num (by decide) hnum' (by decide))]
      rfl
    · show hasSubSeq (statusLower _) "waitlist".data = true
      rw [e2, show ("waitlist (nondriver) - ".data)
          = "waitlist".data ++ " (nondriver) - ".data from by decide,
        List.append_assoc]
      exact hasSubSeq_self_append _ _
    · show hasSubSeq (statusLower _) "dropped".data = false
      rw [e2]
      exact hasSubSeq_eq_false_of_not_mem (c := 'p') (by decide)
        (not_mem_base_num (by decide) hnum' (by decide))
  · refine ⟨?_, ?_, ?_⟩
    · show ((hasSubSeq (statusLower _) "selected".data
          || hasSubSeq (statusLower _) "on trip".data)
          && !(hasSubSeq (statusLower _) "dropped".data)) = false
      rw [e3]
      rw [hasSubSeq_eq_false_of_not_mem (c := 'c') (by decide)
          (not_mem_base_num (by decide) hdate (by decide)),
        hasSubSeq_eq_false_of_not_mem (c := 't') (by decide)
          (not_mem_base_num (by decide) hdate (by decide))]
      rfl
    · show hasSubSeq (statusLower _) "waitlist".data = false
      rw [e3]
      exact hasSubSeq_eq_false_of_not_mem (c := 'w') (by decide)
        (not_mem_base_num (by decide) hdate (by decide))
    · show hasSubSeq (statusLower _) "dropped".data = true
      rw [e3, show ("dropped- ".data) = "dropped".data ++ "- ".data from by decide,
        List.append_assoc]
      exact hasSubSeq_self_append _ _

/-- Witness for `core_status_classification_exact` at the concrete
waitlist numeral "1" and date stamp "10/12/2025". -/
theorem core_status_classification_exact_witness :
    isWaitlistStatus (waitlistDriverStatusStr ['1']) = true
    ∧ isOnRosterStatus (droppedStatusStr "10/12/2025".data) = false :=
  ⟨(core_status_classification_exact ['1'] "10/12/2025".data
      (by decide) (by decide)).2.2.1.2.1,
   (core_status_classification_exact ['1'] "10/12/2025".data
      (by decide) (by decide)).2.2.2.2.1⟩

/-! ### Allocator claims -/

/-- C4: with a driver-eligible pool of 5, driverSlotsNeeded = 2, a
non-driver pool of 1 and nonDriverSlotsNeeded = 3, the proposal has
exactly the first 2 shuffled drivers as selected drivers, the selected
non-drivers are the 1 non-driver followed by 2 backfilled members of the
remaining driver pool, and the proposed waitlist is the 1 remaining
driver; moreover (last conjunct, for arbitrary inputs) the selected
drivers are always exactly a prefix of the driver pool, so backfill never
flows from the non-driver pool into driver slots. -/
theorem backfill_scenario (sd sn : List Signup)
    (hd : sd.length = 5) (hn : sn.length = 1) :
    ((allocate 2 3 sd sn).selectedAsDrivers = sd.take 2
      ∧ (allocate 2 3 sd sn).selectedAsDrivers.length = 2)
    ∧ (allocate 2 3 sd sn).selectedAsNonDrivers = sn ++ (sd.drop 2).take 2
    ∧ ((allocate 2 3 sd sn).proposedWaitlist = sd.drop 4
      ∧ (allocate 2 3 sd sn).proposedWaitlist.length = 1)
    ∧ (∀ (d n : Nat) (sd' sn' : List Signup),
        (allocate d n sd' sn').selectedAsDrivers = sd'.take d) := by
  rcases sd with _ | ⟨a, _ | ⟨b, _ | ⟨c, _ | ⟨d, _ | ⟨e, _ | ⟨f, tl⟩⟩⟩⟩⟩⟩ <;>
    simp only [List.length_cons, List.length_nil] at hd <;> try omega
  rcases sn with _ | ⟨x, _ | ⟨y, tl'⟩⟩ <;>
    simp only [List.length_cons, List.length_nil] at hn <;> try omega
  exact ⟨⟨rfl, rfl⟩, rfl, ⟨rfl, rfl⟩, fun _ _ _ _ => rfl⟩

/-- Witness for `backfill_scenario` at concrete pools of sizes 5 and 1. -/
theorem backfill_scenario_witness :
    (allocate 2 3
        [⟨"d1", "", true, ""⟩, ⟨"d2", "", true, ""⟩, ⟨"d3", "", true, ""⟩,
          ⟨"d4", "", true, ""⟩, ⟨"d5", "", true, ""⟩]
        [⟨"n1", "", false, ""⟩]).selectedAsNonDrivers
      = [⟨"n1", "", false, ""⟩]
        ++ (([⟨"d1", "", true, ""⟩, ⟨"d2", "", true, ""⟩, ⟨"d3", "", true, ""⟩,
          ⟨"d4", "", true, ""⟩, ⟨"d5", "", true, ""⟩] : List Signup).drop 2).take 2 :=
  (backfill_scenario
      [⟨"d1", "", true, ""⟩, ⟨"d2", "", true, ""⟩, ⟨"d3", "", true, ""⟩,
        ⟨"d4", "", true, ""⟩, ⟨"d5", "", true, ""⟩]
      [⟨"n1", "", false, ""⟩] rfl rfl).2.1

/-- C6: for every allocator run, under the Trip invariant
`driverSlots + nonDriverCapacity = totalCapacity` taken as a hypothesis,
the proposal satisfies `|selectedDrivers| + |selectedNonDrivers| ≤
totalCapacity` and `|selectedDrivers| ≤ driverSlotsNeeded`. -/
theorem capacity_conservation (d n cap : Nat) (sd sn : List Signup)
    (hInv : d + n = cap) :
    (allocate d n sd sn).selectedAsDrivers.length
        + (allocate d n sd sn).selectedAsNonDrivers.length ≤ cap
    ∧ (allocate d n sd sn).selectedAsDrivers.length ≤ d := by
  subst hInv
  have hdr : (allocate d n sd sn).selectedAsDrivers.length ≤ d := by
    show (sd.take d).length ≤ d
    simp [List.length_take]
  have hnd : (allocate d n sd sn).selectedAsNonDrivers.length ≤ n := by
    show (if _ then _ else _ : List Signup).length ≤ n
    split
    · simp only [List.length_append, List.length_take, List.length_drop]
      omega
    · simp [List.length_take]
  exact ⟨by omega, hdr⟩

/-- Witness for `capacity_conservation` at a concrete run. -/
theorem capacity_conservation_witness :
    (allocate 2 3
        [⟨"d1", "", true, ""⟩, ⟨"d2", "", true, ""⟩, ⟨"d3", "", true, ""⟩]
        [⟨"n1", "", false, ""⟩]).selectedAsDrivers.length
      + (allocate 2 3
        [⟨"d1", "", true, ""⟩, ⟨"d2", "", true, ""⟩, ⟨"d3", "", true, ""⟩]
        [⟨"n1", "", false, ""⟩]).selectedAsNonDrivers.length ≤ 5 :=
  (capacity_conservation 2 3 5
      [⟨"d1", "", true, ""⟩, ⟨"d2", "", true, ""⟩, ⟨"d3", "", true, ""⟩]
      [⟨"n1", "", false, ""⟩] rfl).1

/-! ### Approval committer lemmas -/

theorem rosterMatches_iff (a b : List String) :
    rosterMatches a b = true ↔ a.length = b.length ∧ ∀ id ∈ a, id ∈ b := by
  simp [rosterMatches, List.all_eq_true, List.contains]

/-- Spec-side notion of exact set equality between two id lists (same
membership as sets, order and multiplicity irrelevant), stated from the
spec's words for comparison with the code's validation predicate. -/
def specSetEq (l₁ l₂ : List String) : Prop := ∀ x, x ∈ l₁ ↔ x ∈ l₂

theorem nodup_lengthSubset_iff_specSetEq (l₁ l₂ : List String)
    (h₁ : l₁.Nodup) (h₂ : l₂.Nodup) :
    (l₁.length = l₂.length ∧ ∀ x ∈ l₁, x ∈ l₂) ↔ specSetEq l₁ l₂ := by
  constructor
  · rintro ⟨hlen, hsub⟩ x
    have hfs : l₁.toFinset ⊆ l₂.toFinset := by
      intro y hy
      exact List.mem_toFinset.2 (hsub y (List.mem_toFinset.1 hy))
    have hcard : l₂.toFinset.card ≤ l₁.toFinset.card := by
      rw [List.toFinset_card_of_nodup h₁, List.toFinset_card_of_nodup h₂]
      omega
    have heq := Finset.eq_of_subset_of_card_le hfs hcard
    constructor
    · exact fun hx => hsub x hx
    · intro hx
      have : x ∈ l₁.toFinset := heq ▸ List.mem_toFinset.2 hx
      exact List.mem_toFinset.1 this
  · intro h
    have heqf : l₁.toFinset = l₂.toFinset :=
      Finset.ext fun x => by simp only [List.mem_toFinset]; exact h x
    refine ⟨?_, fun x hx => (h x).1 hx⟩
    calc l₁.length = l₁.toFinset.card := (List.toFinset_card_of_nodup h₁).symm
      _ = l₂.toFinset.card := by rw [heqf]
      _ = l₂.length := List.toFinset_card_of_nodup h₂

/-! ### C1: expiry is not checked by approve -/

/-- C1 counterexample: a proposal created at time 0 is, at time
`PROPOSAL_TTL + 60000` (11 minutes), expired by the core's own sweep rule
(first conjunct), yet `approve` — which never consults the timestamp —
still accepts it and succeeds instead of failing with NoPendingProposal
(second conjunct). -/
theorem expired_unswept_proposal_accepted :
    cleanupExpiredProposals (PROPOSAL_TTL + 60000)
        (fun k => if k = "t" then some ⟨["a"], [], 0⟩ else none) "t" = none
    ∧ (approve (fun k => if k = "t" then some ⟨["a"], [], 0⟩ else none) "t" ["a"] []
        [⟨"a", "Alice", true, "Waitlist (driver) - 1"⟩]).1
      = Except.ok [⟨"a", "Selected (driver)"⟩] :=
  ⟨rfl, rfl⟩

/-- C1 amended: `approve` fails with NoPendingProposal exactly when the
cache holds no entry for the trip; the 10-minute TTL is enforced only by
the periodic sweep (second conjunct characterizes which entries the sweep
keeps), so a proposal older than the TTL that the sweep has not yet
removed is still accepted by `approve`. -/
theorem approve_absent_iff_cache_none (cache : Cache) (tripId : String)
    (rs ws : List String) (sgs : List Signup) :
    ((approve cache tripId rs ws sgs).1
        = Except.error ApproveError.NoPendingProposal ↔ cache tripId = none)
    ∧ (∀ (now : Nat) (p : ProposedRoster),
        cleanupExpiredProposals now cache tripId = some p ↔
          cache tripId = some p ∧ ¬(now - p.timestamp > PROPOSAL_TTL)) := by
  constructor
  · cases hc : cache tripId with
    | none => simp [approve, hc]
    | some stored =>
      simp only [approve, hc]
      split
      · simp
      · simp
  · intro now p
    cases hc : cache tripId with
    | none => simp [cleanupExpiredProposals, hc]
    | some q =>
      simp only [cleanupExpiredProposals, hc]
      split
      · simp only [reduceCtorEq, false_iff, not_and]
        intro hq
        rw [Option.some_inj] at hq
        subst hq
        simp_all
      · constructor
        · intro hq
          rw [Option.some_inj] at hq
          subst hq
          exact ⟨rfl, by assumption⟩
        · rintro ⟨hq, -⟩
          exact hq

/-! ### C2: the validation predicate versus exact set equality -/

/-- C2 counterexample: the cached proposal's roster ids are {"a","b"},
the caller supplies ["a","a"] — not set-equal to {"a","b"} ("b" is
missing) — yet validation passes and approve succeeds, because the code
checks only list length plus membership of each supplied id in the stored
set, which duplicates can satisfy. -/
theorem duplicate_ids_pass_validation :
    (approve (fun k => if k = "t" then some ⟨["a", "b"], [], 0⟩ else none) "t"
        ["a", "a"] [] [⟨"a", "A", true, "s"⟩, ⟨"b", "B", false, "s"⟩]).1
      = Except.ok [⟨"a", "Selected (driver)"⟩, ⟨"a", "Selected (driver)"⟩]
    ∧ ¬ specSetEq ["a", "a"] ["a", "b"] := by
  refine ⟨rfl, fun h => ?_⟩
  have hb : ("b" : String) ∈ ["a", "a"] := (h "b").2 (by simp)
  simp at hb

/-- C2 amended: with a live cached proposal, approve succeeds iff each
caller-supplied id list has the same length as the stored list and every
supplied id belongs to the stored set; when the supplied and stored lists
are duplicate-free this coincides with exact set equality (last
conjunct); any mismatch fails with ProposalMismatch and leaves the cache
entry intact. -/
theorem approve_validation_characterization (cache : Cache) (tripId : String)
    (rs ws : List String) (sgs : List Signup) (stored : ProposedRoster)
    (hc : cache tripId = some stored) :
    ((∃ us, (approve cache tripId rs ws sgs).1 = Except.ok us) ↔
      ((rs.length = stored.rosterIds.length ∧ ∀ id ∈ rs, id ∈ stored.rosterIds)
        ∧ (ws.length = stored.waitlistIds.length ∧ ∀ id ∈ ws, id ∈ stored.waitlistIds)))
    ∧ (¬((rs.length = stored.rosterIds.length ∧ ∀ id ∈ rs, id ∈ stored.rosterIds)
        ∧ (ws.length = stored.waitlistIds.length ∧ ∀ id ∈ ws, id ∈ stored.waitlistIds)) →
        (approve cache tripId rs ws sgs).1 = Except.error ApproveError.ProposalMismatch
        ∧ (approve cache tripId rs ws sgs).2 = cache)
    ∧ (rs.Nodup → stored.rosterIds.Nodup →
        ((rs.length = stored.rosterIds.length ∧ ∀ id ∈ rs, id ∈ stored.rosterIds)
          ↔ specSetEq rs stored.rosterIds)) := by
  have hbool : (rosterMatches rs stored.rosterIds
      && rosterMatches ws stored.waitlistIds) = true ↔
      ((rs.length = stored.rosterIds.length ∧ ∀ id ∈ rs, id ∈ stored.rosterIds)
        ∧ (ws.length = stored.waitlistIds.length ∧ ∀ id ∈ ws, id ∈ stored.waitlistIds)) := by
    rw [Bool.and_eq_true, rosterMatches_iff, rosterMatches_iff]
  refine ⟨?_, ?_, fun h₁ h₂ => nodup_lengthSubset_iff_specSetEq _ _ h₁ h₂⟩
  · constructor
    · rintro ⟨us, hus⟩
      by_cases hbm : (rosterMatches rs stored.rosterIds
          && rosterMatches ws stored.waitlistIds) = true
      · exact hbool.1 hbm
      · simp [approve, hc, hbm] at hus
    · intro hr
      refine ⟨approveUpdates rs ws sgs, ?_⟩
      simp [approve, hc, hbool.2 hr]
  · intro hr
    have hbm : (rosterMatches rs stored.rosterIds
        && rosterMatches ws stored.waitlistIds) ≠ true := fun h => hr (hbool.1 h)
    constructor
    · simp [approve, hc, hbm]
    · simp [approve, hc, hbm]

/-- Witness for `approve_validation_characterization`: a matching
approval at concrete inputs succeeds. -/
theorem approve_validation_characterization_witness :
    ∃ us, (approve (fun k => if k = "t" then some ⟨["a"], ["b"], 0⟩ else none) "t"
        ["a"] ["b"] [⟨"a", "A", true, "s"⟩, ⟨"b", "B", false, "s"⟩]).1 = Except.ok us :=
  (approve_validation_characterization
      (fun k => if k = "t" then some ⟨["a"], ["b"], 0⟩ else none) "t"
      ["a"] ["b"] [⟨"a", "A", true, "s"⟩, ⟨"b", "B", false, "s"⟩]
      ⟨["a"], ["b"], 0⟩ rfl).1.mpr
    ⟨⟨rfl, by decide⟩, ⟨rfl, by decide⟩⟩

/-! ### C3: the cache entry is deleted before any write -/

theorem cacheStates_map_write (c : Cache) (us : List Update) :
    cacheStates c (us.map Event.write) = us.map (fun _ => c) := by
  induction us with
  | nil => rfl
  | cons u us ih => simp [cacheStates, stepCache, ih]

theorem approve_of_cache_none (c : Cache) (tripId : String)
    (rs ws : List String) (sgs : List Signup) (h : c tripId = none) :
    (approve c tripId rs ws sgs).1 = Except.error ApproveError.NoPendingProposal := by
  simp [approve, h]

/-- C3: for every approval whose id lists match the cached proposal, the
event trace is the cache deletion followed by the status writes (first
conjunct), the post-call cache has no entry for the trip (second), a
second approval request for the same trip then immediately fails with
NoPendingProposal (third), and at every write event of the trace the
cache observed at that point no longer holds the proposal (fourth). -/
theorem approve_deletes_before_writes (cache : Cache) (tripId : String)
    (rs ws : List String) (sgs : List Signup) (stored : ProposedRoster)
    (hc : cache tripId = some stored)
    (hm : (rosterMatches rs stored.rosterIds
      && rosterMatches ws stored.waitlistIds) = true) :
    approveTrace cache tripId rs ws sgs
      = Event.deleteProposal tripId :: (approveUpdates rs ws sgs).map Event.write
    ∧ (approve cache tripId rs ws sgs).2 tripId = none
    ∧ (∀ (rs' ws' : List String) (sgs' : List Signup),
        (approve ((approve cache tripId rs ws sgs).2) tripId rs' ws' sgs').1
          = Except.error ApproveError.NoPendingProposal)
    ∧ (∀ (i : Nat) (h : i < (approveTrace cache tripId rs ws sgs).length),
        ((approveTrace cache tripId rs ws sgs).get ⟨i, h⟩).isWrite = true →
        ∀ (h2 : i < (cacheStates cache (approveTrace cache tripId rs ws sgs)).length),
          ((cacheStates cache (approveTrace cache tripId rs ws sgs)).get ⟨i, h2⟩) tripId
            = none) := by
  have htrace : approveTrace cache tripId rs ws sgs
      = Event.deleteProposal tripId :: (approveUpdates rs ws sgs).map Event.write := by
    simp [approveTrace, hc, hm]
  have hpost : (approve cache tripId rs ws sgs).2 tripId = none := by
    simp [approve, hc, hm]
  refine ⟨htrace, hpost, ?_, ?_⟩
  · intro rs' ws' sgs'
    exact approve_of_cache_none _ _ rs' ws' sgs' hpost
  · intro i h hw h2
    rcases i with _ | j
    · rw [List.get_of_eq htrace ⟨0, h⟩] at hw
      simp [Event.isWrite] at hw
    · have hstates : cacheStates cache (approveTrace cache tripId rs ws sgs)
          = cache :: (approveUpdates rs ws sgs).map
              (fun _ => stepCache cache (Event.deleteProposal tripId)) := by
        rw [htrace]
        simp [cacheStates, cacheStates_map_write]
      rw [htrace] at h
      have hj : j < (approveUpdates rs ws sgs).length := by
        simpa using Nat.lt_of_succ_lt_succ h
      have h2' : j + 1 < (cache :: (approveUpdates rs ws sgs).map
          (fun _ => stepCache cache (Event.deleteProposal tripId))).length := by
        simpa using Nat.succ_lt_succ hj
      have hget : ((cacheStates cache (approveTrace cache tripId rs ws sgs)).get ⟨j + 1, h2⟩)
          = stepCache cache (Event.deleteProposal tripId) := by
        have := List.get_of_eq hstates ⟨j + 1, h2⟩
        rw [this]
        show ((approveUpdates rs ws sgs).map
            (fun _ => stepCache cache (Event.deleteProposal tripId))).get ⟨j, _⟩ = _
        simp
      rw [hget]
      simp [stepCache]

/-- Witness for `approve_deletes_before_writes` at a concrete matching
approval. -/
theorem approve_deletes_before_writes_witness :
    (approve (fun k => if k = "t" then some ⟨["a"], [], 0⟩ else none) "t" ["a"] []
        [⟨"a", "Alice", true, "WAITLIST"⟩]).2 "t" = none :=
  (approve_deletes_before_writes
      (fun k => if k = "t" then some ⟨["a"], [], 0⟩ else none) "t" ["a"] []
      [⟨"a", "Alice", true, "WAITLIST"⟩] ⟨["a"], [], 0⟩ rfl (by decide)).2.1

/-! ### C10: unresolved ids are skipped, numbering stays contiguous -/

theorem numberFrom_map_status (pre : String) (k : Nat) (ids : List String) :
    (numberFrom pre k ids).map (fun u => u.status)
      = (List.range' (k + 1) ids.length).map (fun i => pre ++ toString i) := by
  induction ids generalizing k with
  | nil => rfl
  | cons id ids ih => simp [numberFrom, List.range'_succ, ih]

theorem numberFrom_mem_id {pre : String} {k : Nat} {ids : List String} {u : Update}
    (h : u ∈ numberFrom pre k ids) : u.id ∈ ids := by
  induction ids generalizing k with
  | nil => simp [numberFrom] at h
  | cons id ids ih =>
    simp only [numberFrom, List.mem_cons] at h
    rcases h with rfl | h
    · exact List.mem_cons_self _ _
    · exact List.mem_cons_of_mem _ (ih h)

theorem mem_buildRosterUpdates {rs : List String} {sgs : List Signup} {u : Update}
    (h : u ∈ buildRosterUpdates rs sgs) : ∃ s ∈ sgs, s.id = u.id := by
  simp only [buildRosterUpdates, List.mem_filterMap] at h
  obtain ⟨id, -, hmatch⟩ := h
  cases hfind : sgs.find? (fun s => s.id == id) with
  | none => rw [hfind] at hmatch; cases hmatch
  | some s =>
    rw [hfind] at hmatch
    have hs : s ∈ sgs := List.mem_of_find?_eq_some hfind
    have hid := List.find?_some hfind
    simp only [beq_iff_eq] at hid
    rw [Option.some_inj] at hmatch
    subst hmatch
    exact ⟨s, hs, hid⟩

theorem mem_waitlistDriverIds {ws : List String} {sgs : List Signup} {id : String}
    (h : id ∈ waitlistDriverIds ws sgs) : ∃ s ∈ sgs, s.id = id := by
  have hp := (List.mem_filter.1 h).2
  cases hfind : sgs.find? (fun s => s.id == id) with
  | none => rw [hfind] at hp; cases hp
  | some s =>
    rw [hfind] at hp
    have hid2 := List.find?_some hfind
    simp only [beq_iff_eq] at hid2
    exact ⟨s, List.mem_of_find?_eq_some hfind, hid2⟩

theorem mem_waitlistNonDriverIds {ws : List String} {sgs : List Signup} {id : String}
    (h : id ∈ waitlistNonDriverIds ws sgs) : ∃ s ∈ sgs, s.id = id := by
  have hp := (List.mem_filter.1 h).2
  cases hfind : sgs.find? (fun s => s.id == id) with
  | none => rw [hfind] at hp; cases hp
  | some s =>
    rw [hfind] at hp
    have hid2 := List.find?_some hfind
    simp only [beq_iff_eq] at hid2
    exact ⟨s, List.mem_of_find?_eq_some hfind, hid2⟩

theorem mem_approveUpdates_resolves {rs ws : List String} {sgs : List Signup} {u : Update}
    (h : u ∈ approveUpdates rs ws sgs) : ∃ s ∈ sgs, s.id = u.id := by
  simp only [approveUpdates, List.mem_append] at h
  rcases h with (h | h) | h
  · exact mem_buildRosterUpdates h
  · exact mem_waitlistDriverIds (numberFrom_mem_id h)
  · exact mem_waitlistNonDriverIds (numberFrom_mem_id h)

/-- C10: during a validated approval, every emitted update resolves to a
fetched signup, so any roster or waitlist id not present among the fresh
signups produces no update (third conjunct); waitlist position numbers
are assigned contiguously 1..k over the resolving ids of each sub-queue
(fourth and fifth conjuncts); and the approval still reports success with
exactly this update set (first conjunct). -/
theorem approve_skips_unresolved_ids (cache : Cache) (tripId : String)
    (rs ws : List String) (sgs : List Signup) (stored : ProposedRoster)
    (hc : cache tripId = some stored)
    (hm : (rosterMatches rs stored.rosterIds
      && rosterMatches ws stored.waitlistIds) = true) :
    (approve cache tripId rs ws sgs).1 = Except.ok (approveUpdates rs ws sgs)
    ∧ (∀ u ∈ approveUpdates rs ws sgs, ∃ s ∈ sgs, s.id = u.id)
    ∧ (∀ id : String, (∀ s ∈ sgs, s.id ≠ id) →
        ∀ u ∈ approveUpdates rs ws sgs, u.id ≠ id)
    ∧ ((numberWaitlist "Waitlist (driver) - " (waitlistDriverIds ws sgs)).map
          (fun u => u.status)
        = (List.range' 1 (waitlistDriverIds ws sgs).length).map
            (fun i => "Waitlist (driver) - " ++ toString i))
    ∧ ((numberWaitlist "Waitlist (nondriver) - " (waitlistNonDriverIds ws sgs)).map
          (fun u => u.status)
        = (List.range' 1 (waitlistNonDriverIds ws sgs).length).map
            (fun i => "Waitlist (nondriver) - " ++ toString i)) := by
  refine ⟨by simp [approve, hc, hm], fun u hu => mem_approveUpdates_resolves hu,
    ?_, numberFrom_map_status _ 0 _, numberFrom_map_status _ 0 _⟩
  intro id hid u hu huid
  obtain ⟨s, hs, hsid⟩ := mem_approveUpdates_resolves hu
  exact hid s hs (hsid.trans huid)

/-- Witness for `approve_skips_unresolved_ids`: an approval whose roster
list contains an id ("ghost") absent from the fetched signups still
succeeds, emitting updates only for the resolving ids. -/
theorem approve_skips_unresolved_ids_witness :
    (approve (fun k => if k = "t" then some ⟨["a", "ghost"], ["w"], 0⟩ else none) "t"
        ["a", "ghost"] ["w"]
        [⟨"a", "A", true, "s"⟩, ⟨"w", "W", false, "WAITLIST"⟩]).1
      = Except.ok (approveUpdates ["a", "ghost"] ["w"]
          [⟨"a", "A", true, "s"⟩, ⟨"w", "W", false, "WAITLIST"⟩]) :=
  (approve_skips_unresolved_ids
      (fun k => if k = "t" then some ⟨["a", "ghost"], ["w"], 0⟩ else none) "t"
      ["a", "ghost"] ["w"]
      [⟨"a", "A", true, "s"⟩, ⟨"w", "W", false, "WAITLIST"⟩]
      ⟨["a", "ghost"], ["w"], 0⟩ rfl (by decide)).1

/-! ### C7: generic promotion prefers a driver -/

theorem roster_length_split (sgs : List Signup) :
    (rosterOf sgs).length = currentDriversOf sgs + currentNonDriversOf sgs := by
  unfold currentNonDriversOf
  have hle : currentDriversOf sgs ≤ (rosterOf sgs).length :=
    List.length_filter_le _ _
  omega

/-- C7: whenever both a driver spot and a non-driver spot are open and
the current waitlist holds at least one driver and at least one
non-driver, the generic addFromWaitlist handler selects the first driver
in current waitlist iteration order and assigns "Selected (driver)". -/
theorem generic_promote_prefers_driver (maxParticipants driverSlots : Nat)
    (sgs : List Signup) (w : Signup) (rest : List Signup)
    (hdAvail : (driverSlots : Int) - currentDriversOf sgs > 0)
    (hndAvail : (maxParticipants : Int) - driverSlots - currentNonDriversOf sgs > 0)
    (hwd : (waitlistOf sgs).filter (fun s => s.isDriver) = w :: rest)
    (_hwnd : (waitlistOf sgs).filter (fun s => !s.isDriver) ≠ []) :
    addFromWaitlist maxParticipants driverSlots sgs
      = Except.ok ⟨w.id, "Selected (driver)"⟩ := by
  have hwdriver : w.isDriver = true := by
    have hwmem : w ∈ (waitlistOf sgs).filter (fun s => s.isDriver) :=
      hwd ▸ List.mem_cons_self w rest
    exact (List.mem_filter.1 hwmem).2
  have hsplit := roster_length_split sgs
  have hfull : ¬((rosterOf sgs).length ≥ maxParticipants) := by omega
  have hwlne : ¬((waitlistOf sgs).length = 0) := by
    intro h0
    rw [List.length_eq_zero.1 h0] at hwd
    simp at hwd
  simp only [addFromWaitlist]
  rw [if_neg hfull, if_neg hwlne, if_pos ⟨hdAvail, hndAvail⟩, hwd]
  simp [selectedStatusFor, hwdriver]

/-- Witness for `generic_promote_prefers_driver` at a concrete trip with
an open driver and non-driver spot and mixed waitlist. -/
theorem generic_promote_prefers_driver_witness :
    addFromWaitlist 10 3
        [⟨"r1", "", true, "Selected (driver)"⟩,
          ⟨"w1", "", false, "WAITLIST"⟩,
          ⟨"w2", "", true, "Waitlist (driver) - 1"⟩]
      = Except.ok ⟨"w2", "Selected (driver)"⟩ :=
  generic_promote_prefers_driver 10 3
    [⟨"r1", "", true, "Selected (driver)"⟩,
      ⟨"w1", "", false, "WAITLIST"⟩,
      ⟨"w2", "", true, "Waitlist (driver) - 1"⟩]
    ⟨"w2", "", true, "Waitlist (driver) - 1"⟩
    []
    (by decide) (by decide) (by decide) (by decide)

/-! ### C9: re-admission never checks the prior status -/

/-- C9: the reAddParticipant handler fails with ParticipantNotFound
exactly when the given id is absent from the trip's signups (first
conjunct); for any found signup — whatever its current status, dropped or
not — the operation succeeds whenever total capacity and the per-flag
sub-capacity permit one more member, rewriting the status to the
Selected form for the participant's flag (second conjunct). -/
theorem readd_ignores_prior_status (maxParticipants driverSlots : Nat)
    (sgs : List Signup) (pid : String) :
    ((reAddParticipant maxParticipants driverSlots sgs pid
        = Except.error ReAddError.ParticipantNotFound) ↔ ∀ s ∈ sgs, s.id ≠ pid)
    ∧ (∀ p, sgs.find? (fun s => s.id == pid) = some p →
        (rosterOf sgs).length < maxParticipants →
        ((p.isDriver = true → currentDriversOf sgs < driverSlots →
            reAddParticipant maxParticipants driverSlots sgs pid
              = Except.ok ⟨pid, "Selected (driver)"⟩)
          ∧ (p.isDriver = false →
            (driverSlots : Int) + currentNonDriversOf sgs < maxParticipants →
            reAddParticipant maxParticipants driverSlots sgs pid
              = Except.ok ⟨pid, "Selected (nondriver)"⟩))) := by
  constructor
  · cases hfind : sgs.find? (fun s => s.id == pid) with
    | none =>
      constructor
      · intro _ s hs
        have hnone := List.find?_eq_none.1 hfind s hs
        simpa using hnone
      · intro _
        simp [reAddParticipant, hfind]
    | some p =>
      have hp : p ∈ sgs := List.mem_of_find?_eq_some hfind
      have hpid := List.find?_some hfind
      simp only [beq_iff_eq] at hpid
      constructor
      · intro herr
        simp only [reAddParticipant, hfind] at herr
        split at herr
        · exact absurd herr (by simp)
        · split at herr
          · split at herr
            · exact absurd herr (by simp)
            · exact absurd herr (by simp)
          · split at herr
            · exact absurd herr (by simp)
            · exact absurd herr (by simp)
      · intro hall
        exact absurd hpid (hall p hp)
  · intro p hfind hcap
    constructor
    · intro hdr hslots
      simp only [reAddParticipant, hfind]
      rw [if_neg (show ¬((rosterOf sgs).length ≥ maxParticipants) by omega),
        if_pos hdr,
        if_neg (show ¬((driverSlots : Int) - currentDriversOf sgs ≤ 0) by omega)]
    · intro hdr hslots
      simp only [reAddParticipant, hfind]
      rw [if_neg (show ¬((rosterOf sgs).length ≥ maxParticipants) by omega),
        if_neg (show ¬(p.isDriver = true) by simp [hdr]),
        if_neg (show ¬((maxParticipants : Int) - driverSlots - currentNonDriversOf sgs ≤ 0)
          by omega)]

/-- Witness for `readd_ignores_prior_status`: a dropped participant is
re-admitted as a non-driver when capacity permits. -/
theorem readd_ignores_prior_status_witness :
    reAddParticipant 2 0 [⟨"a", "x", false, "Dropped- 01/01/2024"⟩] "a"
      = Except.ok ⟨"a", "Selected (nondriver)"⟩ :=
  ((readd_ignores_prior_status 2 0 [⟨"a", "x", false, "Dropped- 01/01/2024"⟩] "a").2
      ⟨"a", "x", false, "Dropped- 01/01/2024"⟩ rfl (by decide)).2 rfl (by decide)

/-! ### C8: drop is a pure single-field soft delete -/

theorem mapStatus_dropped (d : String) :
    mapStatusToAirtable ("Dropped- " ++ d) = "Dropped- " ++ d := by
  have hR : ("Dropped- " ++ d) ≠ "Roster" := by
    intro h
    have hl := congrArg String.length h
    rw [String.length_append] at hl
    have h1 : ("Dropped- " : String).length = 9 := rfl
    have h2 : ("Roster" : String).length = 6 := rfl
    omega
  have hW : ("Dropped- " ++ d) ≠ "Waitlist" := by
    intro h
    have hl := congrArg String.length h
    rw [String.length_append] at hl
    have h1 : ("Dropped- " : String).length = 9 := rfl
    have h2 : ("Waitlist" : String).length = 8 := rfl
    omega
  unfold mapStatusToAirtable
  rw [if_neg hR, if_neg hW]

/-- C8: for every participant id and any prior status, the drop handler
emits exactly one persistence update (first conjunct); applying it
rewrites only the Status field of that record to the date-stamped dropped
marker, keeping id, name and driver flag (second conjunct); every other
record is untouched (third conjunct); and the record is never deleted
(fourth conjunct).  No capacity hypothesis is required anywhere. -/
theorem drop_soft_delete (store : Store) (pid todayDate : String) (s : Signup)
    (hs : store pid = some s) :
    (dropUpdates pid todayDate).length = 1
    ∧ applyUpdate store (dropParticipant pid todayDate) pid
        = some ⟨s.id, s.name, s.isDriver, "Dropped- " ++ todayDate⟩
    ∧ (∀ k, k ≠ pid → applyUpdate store (dropParticipant pid todayDate) k = store k)
    ∧ applyUpdate store (dropParticipant pid todayDate) pid ≠ none := by
  have hmain : applyUpdate store (dropParticipant pid todayDate) pid
      = some ⟨s.id, s.name, s.isDriver, "Dropped- " ++ todayDate⟩ := by
    show updateSignupStore store pid ("Dropped- " ++ todayDate) pid = _
    unfold updateSignupStore
    rw [if_pos rfl, hs, mapStatus_dropped]
  refine ⟨rfl, hmain, ?_, ?_⟩
  · intro k hk
    show updateSignupStore store pid ("Dropped- " ++ todayDate) k = store k
    unfold updateSignupStore
    rw [if_neg hk]
  · rw [hmain]
    simp

/-- Witness for `drop_soft_delete`: dropping a rostered participant on a
concrete date rewrites only their status. -/
theorem drop_soft_delete_witness :
    applyUpdate
        (fun k => if k = "a" then some ⟨"a", "Al", true, "Selected (driver)"⟩ else none)
        (dropParticipant "a" "10/12/2025") "a"
      = some ⟨"a", "Al", true, "Dropped- " ++ "10/12/2025"⟩ :=
  (drop_soft_delete
      (fun k => if k = "a" then some ⟨"a", "Al", true, "Selected (driver)"⟩ else none)
      "a" "10/12/2025" ⟨"a", "Al", true, "Selected (driver)"⟩ rfl).2.1

end TripCore
